import Mathlib

/-!
Verification of the RAG ingestion pipeline (`rag/ingest.py`).

Shallow embedding conventions:
* Python strings are `List Char`; Python lists are Lean `List`s.
* The whitespace class of the regex `\s` is modelled by `Char.isWhitespace`.
* The `while` loop of `chunk_text` is embedded with an explicit fuel
  parameter: `none` means the fuel was exhausted before the loop exited,
  so termination of the Python loop is `∃ fuel, … = some result`.
* JSON values returned by the Hugging Face backend are modelled by `JVal`.
* External HTTP collaborators (the Qdrant index service, the embedding
  backends) are modelled by explicit parameters carrying the response the
  collaborator would give; `requests.raise_for_status` raises exactly for
  status codes in `[400, 600)`.
-/

set_option autoImplicit false

namespace Ingest

/-- Python `str.strip()`: remove leading and trailing whitespace. -/
def pyStrip (s : List Char) : List Char :=
  ((s.dropWhile Char.isWhitespace).reverse.dropWhile Char.isWhitespace).reverse

/-- One pass of `re.sub(r"\s+", " ", text)`: every maximal run of whitespace
characters is replaced by a single space.  The boolean records whether the
previous character was part of a whitespace run. -/
def collapseWS : Bool → List Char → List Char
  | _, [] => []
  | afterSpace, c :: cs =>
    if c.isWhitespace then
      if afterSpace then collapseWS true cs else ' ' :: collapseWS true cs
    else
      c :: collapseWS false cs

/-- The normalization performed at the top of `chunk_text`:
`re.sub(r"\s+", " ", text).strip()`. -/
def normalizeText (s : List Char) : List Char :=
  pyStrip (collapseWS false s)

/-- The `while i < len(text)` loop of `chunk_text` (ingest.py lines 67-72),
with explicit fuel.  Each iteration takes `j = min(i + max_chars, len(text))`,
appends `text[i:j]`, and sets `i = j - overlap` clamped at zero (natural
subtraction is exactly the `if i < 0: i = 0` clamp).  `none` means the fuel
ran out before the loop condition became false. -/
def chunkLoop (t : List Char) (maxChars overlap : ℕ) :
    ℕ → ℕ → List (List Char) → Option (List (List Char))
  | 0, _, _ => none
  | fuel + 1, i, acc =>
    if i < t.length then
      chunkLoop t maxChars overlap fuel (min (i + maxChars) t.length - overlap)
        (acc ++ [(t.drop i).take (min (i + maxChars) t.length - i)])
    else
      some acc

/-- `chunk_text(text, max_chars, overlap)` (ingest.py lines 63-73):
normalize the text, then run the windowing loop starting at offset 0. -/
def chunk_text (text : List Char) (maxChars overlap : ℕ) (fuel : ℕ) :
    Option (List (List Char)) :=
  chunkLoop (normalizeText text) maxChars overlap fuel 0 []

/-- A JSON value, as decoded by `response.json()` from the Hugging Face
backend.  Numbers carry an integer stand-in: only the shape of the value
matters to the code under verification, never numeric arithmetic. -/
inductive JVal where
  | num (n : Int)
  | str (s : List Char)
  | arr (elems : List JVal)
  | obj (fields : List ((List Char) × JVal))

/-- Python `isinstance(x, list)`. -/
def jIsList : JVal → Bool
  | JVal.arr _ => true
  | _ => false

/-- Python `isinstance(x, (int, float))`. -/
def jIsNum : JVal → Bool
  | JVal.num _ => true
  | _ => false

/-- The defensive response normalization of the Hugging Face branch of
`embed_batch` (ingest.py lines 107-118): start from `vectors = []`; if the
decoded response is a list whose first element is a list, return the whole
response; if its first element is a number, wrap the whole response as a
single embedding; a non-list raises `RuntimeError` carrying the raw payload;
in every remaining list case (empty list, or first element of another type)
the untouched `vectors = []` is returned. -/
def hf_normalize (data : JVal) : Except JVal (List JVal) :=
  match data with
  | JVal.arr (e :: rest) =>
    if jIsList e then Except.ok (e :: rest)
    else if jIsNum e then Except.ok [JVal.arr (e :: rest)]
    else Except.ok []
  | JVal.arr [] => Except.ok []
  | other => Except.error other

/-- One element of `res.data` in the OpenAI embeddings response. -/
structure OpenAIDatum where
  embedding : List Int

/-- Errors `embed_batch` can raise: the three `RuntimeError`s of
ingest.py lines 91, 116 and 120, plus the `requests.HTTPError` from
`response.raise_for_status()` on line 101. -/
inductive EmbedError where
  | missingToken
  | transport (status : ℕ)
  | unexpectedFormat (payload : JVal)
  | unknownProvider

/-- `embed_batch(texts)` (ingest.py lines 79-120).  The external backends are
modelled by parameters: `openai_response` is the `res.data` the OpenAI client
would return for `texts`, and `hf_status`/`hf_response` are the HTTP status
and decoded JSON body of the Hugging Face POST for `texts`.
`raise_for_status` raises exactly for statuses in `[400, 600)`. -/
def embed_batch (llm_provider : List Char) (hf_token : Option (List Char))
    (openai_response : List OpenAIDatum) (hf_status : ℕ) (hf_response : JVal)
    (_texts : List (List Char)) : Except EmbedError (List JVal) :=
  if llm_provider = "openai".toList then
    Except.ok (openai_response.map (fun d => JVal.arr (d.embedding.map JVal.num)))
  else if llm_provider = "hf".toList then
    match hf_token with
    | none => Except.error EmbedError.missingToken
    | some _ =>
      if 400 ≤ hf_status ∧ hf_status < 600 then
        Except.error (EmbedError.transport hf_status)
      else
        match hf_normalize hf_response with
        | Except.ok vs => Except.ok vs
        | Except.error payload => Except.error (EmbedError.unexpectedFormat payload)
  else
    Except.error EmbedError.unknownProvider

/-- Python `path.split(os.sep)` (with `os.sep = '/'`): split on every
occurrence of the separator, keeping empty segments; the empty string splits
to one empty segment. -/
def splitOnSep (sep : Char) : List Char → List (List Char)
  | [] => [[]]
  | c :: cs =>
    match splitOnSep sep cs with
    | [] => [[]]
    | h :: t => if c = sep then [] :: h :: t else (c :: h) :: t

/-- Inverse of `splitOnSep` on separator-free segments, used to state the
metadata theorem over a path assembled from its segments. -/
def joinSep (sep : Char) : List (List Char) → List Char
  | [] => []
  | [s] => s
  | s :: s2 :: rest => s ++ sep :: joinSep sep (s2 :: rest)

/-- `os.path.splitext(name)[0]` on a basename: drop the extension starting at
the last dot, provided some character of the name before that dot is not
itself a dot (so names that are all leading dots keep their dots). -/
def stem (name : List Char) : List Char :=
  let pre := name.takeWhile (fun c => c = '.')
  let rest := name.dropWhile (fun c => c = '.')
  if rest.contains '.' then
    pre ++ ((rest.reverse.dropWhile (fun c => ¬ c = '.')).drop 1).reverse
  else name

/-- The metadata attached to every point of a document. -/
structure DocMeta where
  doc_id : List Char
  course_id : List Char
  module_id : List Char

/-- The metadata derivation of `ingest_doc` (ingest.py lines 152-157):
`doc_id` is the stem of the basename, `course_id` is `parts[-3]` when the
split has at least three segments (else `"general"`), `module_id` is
`parts[-2]` when it has at least two (else `"intro"`). -/
def derive_meta (path : List Char) : DocMeta :=
  let parts := splitOnSep '/' path
  { doc_id := stem (parts.getLastD [])
    course_id :=
      if 3 ≤ parts.length then (parts[parts.length - 3]?).getD []
      else "general".toList
    module_id :=
      if 2 ≤ parts.length then (parts[parts.length - 2]?).getD []
      else "intro".toList }

/-- The payload of a point: the metadata merged with the chunk text under the
`content` key (`{**meta, "content": chunk}`, ingest.py lines 132-135). -/
structure Payload where
  doc_id : List Char
  course_id : List Char
  module_id : List Char
  content : List Char

/-- A point sent to the index service: fresh identifier, vector, payload. -/
structure Point where
  id : List Char
  vector : JVal
  payload : Payload

/-- The point-building loop of `qdrant_upsert` (ingest.py lines 127-136):
`for chunk, vec in zip(chunks, vectors)` pairs the two lists index by index,
truncating at the shorter one; the `k`-th point receives the `k`-th freshly
generated identifier from the supply `ids`. -/
def build_points (ids : ℕ → List Char) :
    ℕ → List (List Char) → List JVal → DocMeta → List Point
  | _, [], _, _ => []
  | _, _ :: _, [], _ => []
  | k, c :: cs, v :: vs, meta =>
    { id := ids k, vector := v,
      payload := { doc_id := meta.doc_id, course_id := meta.course_id,
                   module_id := meta.module_id, content := c } } ::
      build_points ids (k + 1) cs vs meta

/-- `qdrant_upsert(chunks, vectors, meta)` (ingest.py lines 126-143): build
the points, issue one PUT, and `raise_for_status` on the reply, whose HTTP
status is the parameter `upsert_status`.  On success the points of the
request body are returned for inspection. -/
def qdrant_upsert (ids : ℕ → List Char) (upsert_status : ℕ)
    (chunks : List (List Char)) (vectors : List JVal) (meta : DocMeta) :
    Except ℕ (List Point) :=
  if 400 ≤ upsert_status ∧ upsert_status < 600 then Except.error upsert_status
  else Except.ok (build_points ids 0 chunks vectors meta)

/-- The collections held by the index service, the external collaborator of
`ensure_collection`.  Modelled from the spec's REST contract:
`GET /collections` lists the names and `PUT /collections/{name}` adds one. -/
structure QdrantState where
  collections : List (List Char)

/-- `qdrant_get_collections()` (ingest.py lines 36-39), returning the names
the service currently holds. -/
def qdrant_get_collections (s : QdrantState) : List (List Char) :=
  s.collections

/-- `qdrant_create_collection()` (ingest.py lines 41-50): the create request,
which on success makes the service hold the new name. -/
def qdrant_create_collection (name : List Char) (s : QdrantState) :
    QdrantState :=
  { collections := s.collections ++ [name] }

/-- `ensure_collection()` (ingest.py lines 52-57): list the collections and
only when the target name is absent issue the create request.  The boolean
records whether a create-collection request was issued. -/
def ensure_collection (name : List Char) (s : QdrantState) :
    QdrantState × Bool :=
  if name ∈ qdrant_get_collections s then (s, false)
  else (qdrant_create_collection name s, true)

/-- A Python value, for the value an embedded function returns: `ingest_doc`
has no `return` statement, so a call to it evaluates to `None`. -/
inductive PyVal where
  | none
  | int (n : Int)
deriving DecidableEq

/-- What a successful `ingest_doc` call produces: the chunk count printed by
the final `print`, the points upserted, and the value the call returns. -/
structure IngestOutcome where
  printedCount : ℕ
  points : List Point
  retval : PyVal

/-- Errors that can abort a document or the whole run. -/
inductive PipelineError where
  | missingToken
  | embedTransport (status : ℕ)
  | unexpectedFormat (payload : JVal)
  | unknownProvider
  | upsertTransport (status : ℕ)
  | createTransport (status : ℕ)

/-- Embedding errors propagate unchanged out of `ingest_doc`. -/
def liftEmbedError : EmbedError → PipelineError
  | EmbedError.missingToken => PipelineError.missingToken
  | EmbedError.transport s => PipelineError.embedTransport s
  | EmbedError.unexpectedFormat p => PipelineError.unexpectedFormat p
  | EmbedError.unknownProvider => PipelineError.unknownProvider

/-- Observable side effects of a run, in order: the collections query, the
create-collection request, reading a document, the embedding backend call,
and the point upsert. -/
inductive Event where
  | listCollections
  | createCollection
  | readDoc (path : List Char)
  | embedCall
  | upsertCall
deriving DecidableEq

/-- `ingest_doc(path)` (ingest.py lines 149-165): derive the metadata, read
the document, chunk it with the default parameters `(800, 200)`, embed all
chunks in one call, and upsert one point per (chunk, vector) pair.  The first
component lists the events that occurred; the second is `none` when the
chunking loop consumed all its fuel without exiting (the call never returns),
`some (Except.error e)` when an error aborts the document, and
`some (Except.ok outcome)` on success.  The count of chunks is printed;
the Python call itself returns `None`. -/
def ingest_doc (llm_provider : List Char) (hf_token : Option (List Char))
    (openai_response : List OpenAIDatum) (hf_status : ℕ) (hf_response : JVal)
    (ids : ℕ → List Char) (upsert_status : ℕ) (fuel : ℕ)
    (path text : List Char) :
    List Event × Option (Except PipelineError IngestOutcome) :=
  let meta := derive_meta path
  match chunk_text text 800 200 fuel with
  | none => ([Event.readDoc path], none)
  | some chunks =>
    match embed_batch llm_provider hf_token openai_response hf_status
        hf_response chunks with
    | Except.error e =>
      ([Event.readDoc path, Event.embedCall],
        some (Except.error (liftEmbedError e)))
    | Except.ok vectors =>
      match qdrant_upsert ids upsert_status chunks vectors meta with
      | Except.error s =>
        ([Event.readDoc path, Event.embedCall, Event.upsertCall],
          some (Except.error (PipelineError.upsertTransport s)))
      | Except.ok points =>
        ([Event.readDoc path, Event.embedCall, Event.upsertCall],
          some (Except.ok
            { printedCount := chunks.length, points := points,
              retval := PyVal.none }))

/-- The document loop of `__main__` (ingest.py lines 182-183): ingest each
discovered document in turn, stopping at the first failure (an unhandled
exception aborts the run) and at a document whose ingestion never returns. -/
def run_docs (llm_provider : List Char) (hf_token : Option (List Char))
    (openai_response : List OpenAIDatum) (hf_status : ℕ) (hf_response : JVal)
    (ids : ℕ → List Char) (upsert_status : ℕ) (fuel : ℕ) :
    List ((List Char) × (List Char)) →
      List Event × Option (Except PipelineError Unit)
  | [] => ([], some (Except.ok ()))
  | (p, t) :: rest =>
    match ingest_doc llm_provider hf_token openai_response hf_status
        hf_response ids upsert_status fuel p t with
    | (evs, none) => (evs, none)
    | (evs, some (Except.error e)) => (evs, some (Except.error e))
    | (evs, some (Except.ok _)) =>
      match run_docs llm_provider hf_token openai_response hf_status
          hf_response ids upsert_status fuel rest with
      | (evs2, r) => (evs ++ evs2, r)

/-- The batch run of `__main__` (ingest.py lines 171-185): query the
collections, create the target collection when absent (halting with the
transport error when the service answers the create request with a status in
`[400, 600)`), then ingest every discovered document. -/
def run_main (collection : List Char) (serverCols : List (List Char))
    (createStatus : ℕ) (llm_provider : List Char)
    (hf_token : Option (List Char)) (openai_response : List OpenAIDatum)
    (hf_status : ℕ) (hf_response : JVal) (ids : ℕ → List Char)
    (upsert_status : ℕ) (fuel : ℕ)
    (docs : List ((List Char) × (List Char))) :
    List Event × Option (Except PipelineError Unit) :=
  if collection ∈ serverCols then
    match run_docs llm_provider hf_token openai_response hf_status hf_response
        ids upsert_status fuel docs with
    | (evs, r) => (Event.listCollections :: evs, r)
  else if 400 ≤ createStatus ∧ createStatus < 600 then
    ([Event.listCollections, Event.createCollection],
      some (Except.error (PipelineError.createTransport createStatus)))
  else
    match run_docs llm_provider hf_token openai_response hf_status hf_response
        ids upsert_status fuel docs with
    | (evs, r) => (Event.listCollections :: Event.createCollection :: evs, r)

end Ingest

namespace Ingest

/-- Once the window start is strictly inside the text, every iteration of the
loop keeps it strictly inside whenever `overlap ≥ 1`: the next start is
`min (i + maxChars) len - overlap ≤ len - 1 < len`.  Hence no amount of fuel
makes the loop exit. -/
lemma chunkLoop_stuck (t : List Char) (m o : ℕ) (ho : 1 ≤ o) :
    ∀ (fuel i : ℕ) (acc : List (List Char)), i < t.length →
      chunkLoop t m o fuel i acc = none := by
  intro fuel
  induction fuel with
  | zero => intro i acc _; rfl
  | succ n ih =>
    intro i acc hi
    have hmin : min (i + m) t.length ≤ t.length := Nat.min_le_right _ _
    simp only [chunkLoop, if_pos hi]
    exact ih _ _ (by omega)

/-- Claim C1: the spec asserts that `chunk_text` terminates for every text and
every parameter pair with `0 ≤ overlap < max_chars`.  The code does not: at the
spec's own example-style input `chunk_text("short", 800, 200)` the loop start
gets stuck at `len(text) - overlap` and the loop never exits, so no amount of
fuel produces a result. -/
theorem chunk_text_short_never_terminates :
    ∀ fuel, chunk_text "short".toList 800 200 fuel = none := by
  intro fuel
  exact chunkLoop_stuck _ 800 200 (by omega) fuel 0 [] (by decide)

/-- Claim C2: `chunk_text` on the empty string does return the empty list of
chunks, but on `"short"` (normalized form non-empty and shorter than
`max_chars = 800`) the loop never terminates instead of returning
`["short"]`. -/
theorem chunk_text_empty_ok_short_diverges :
    chunk_text [] 800 200 1 = some [] ∧
      ∀ fuel, chunk_text "short".toList 800 200 fuel = none := by
  refine ⟨rfl, ?_⟩
  intro fuel
  exact chunkLoop_stuck _ 800 200 (by omega) fuel 0 [] (by decide)

/-- Claim C3, counterexample: the claim says an empty-sequence response and a
sequence of non-numeric, non-sequence elements (such as `["x"]`) raise a
provider-response error.  In the code the `else: raise` is attached to the
outer `isinstance(data, list)` test, so both shapes fall through and the
initial `vectors = []` is returned without any error. -/
theorem hf_normalize_no_error_on_empty_or_str :
    hf_normalize (JVal.arr []) = Except.ok [] ∧
      hf_normalize (JVal.arr [JVal.str ['x']]) = Except.ok [] :=
  ⟨rfl, rfl⟩

/-- Claim C3, amended: the normalization is a case split on the decoded
response.  A sequence headed by a sequence is returned whole, in input order;
a sequence headed by a number is returned as exactly one embedding; a
non-sequence raises a provider-response error carrying the raw payload; but an
empty sequence, or a sequence headed by a value that is neither a number nor a
sequence, silently yields the empty list of embeddings instead of an error. -/
theorem hf_normalize_cases :
    (∀ (xs : List JVal) (rest : List JVal),
        hf_normalize (JVal.arr (JVal.arr xs :: rest)) =
          Except.ok (JVal.arr xs :: rest)) ∧
    (∀ (n : Int) (rest : List JVal),
        hf_normalize (JVal.arr (JVal.num n :: rest)) =
          Except.ok [JVal.arr (JVal.num n :: rest)]) ∧
    hf_normalize (JVal.arr []) = Except.ok [] ∧
    (∀ (s : List Char) (rest : List JVal),
        hf_normalize (JVal.arr (JVal.str s :: rest)) = Except.ok []) ∧
    (∀ (fs : List ((List Char) × JVal)) (rest : List JVal),
        hf_normalize (JVal.arr (JVal.obj fs :: rest)) = Except.ok []) ∧
    (∀ n : Int, hf_normalize (JVal.num n) = Except.error (JVal.num n)) ∧
    (∀ s : List Char, hf_normalize (JVal.str s) = Except.error (JVal.str s)) ∧
    (∀ fs : List ((List Char) × JVal),
        hf_normalize (JVal.obj fs) = Except.error (JVal.obj fs)) :=
  ⟨fun _ _ => rfl, fun _ _ => rfl, rfl, fun _ _ => rfl, fun _ _ => rfl,
    fun _ => rfl, fun _ => rfl, fun _ => rfl⟩

/-- Claim C4: for a non-empty batch of texts, a successful `embed_batch` call
returns one vector per input text for both variants, provided the external
backend honours its contract of answering one embedding per input in input
order (for OpenAI, `res.data` has one datum per text; for Hugging Face, the
response decodes to a list of per-text rows of numbers). -/
theorem embed_batch_length_preserving
    (texts : List (List Char)) (token : List Char)
    (openai_response : List OpenAIDatum) (rows : List (List Int)) (st : ℕ)
    (hne : texts ≠ [])
    (hoai : openai_response.length = texts.length)
    (hrows : rows.length = texts.length)
    (hst : st < 400) :
    embed_batch "openai".toList (some token) openai_response st (JVal.arr [])
        texts =
      Except.ok (openai_response.map
        (fun d => JVal.arr (d.embedding.map JVal.num))) ∧
    (openai_response.map
        (fun d => JVal.arr (d.embedding.map JVal.num))).length = texts.length ∧
    embed_batch "hf".toList (some token) openai_response st
        (JVal.arr (rows.map (fun r => JVal.arr (r.map JVal.num)))) texts =
      Except.ok (rows.map (fun r => JVal.arr (r.map JVal.num))) ∧
    (rows.map (fun r => JVal.arr (r.map JVal.num))).length = texts.length := by
  refine ⟨?_, ?_, ?_, ?_⟩
  · rw [embed_batch, if_pos rfl]
  · rw [List.length_map, hoai]
  · rw [embed_batch, if_neg (by decide), if_pos rfl,
      if_neg (by omega)]
    obtain ⟨r, rs, rfl⟩ : ∃ r rs, rows = r :: rs := by
      cases rows with
      | nil =>
        have : 0 < texts.length := List.length_pos.mpr hne
        simp at hrows
        omega
      | cons r rs => exact ⟨r, rs, rfl⟩
    rfl
  · rw [List.length_map, hrows]

/-- Witness for claim C4 at a concrete one-element batch with a well-behaved
backend. -/
theorem embed_batch_length_preserving_witness :
    embed_batch "openai".toList (some ['t']) [⟨[1, 2]⟩] 200 (JVal.arr [])
        [['a']] =
      Except.ok (([⟨[1, 2]⟩] : List OpenAIDatum).map
        (fun d => JVal.arr (d.embedding.map JVal.num))) ∧
    (([⟨[1, 2]⟩] : List OpenAIDatum).map
        (fun d => JVal.arr (d.embedding.map JVal.num))).length =
      [['a']].length ∧
    embed_batch "hf".toList (some ['t']) [⟨[1, 2]⟩] 200
        (JVal.arr (([[1, 2]] : List (List Int)).map
          (fun r => JVal.arr (r.map JVal.num)))) [['a']] =
      Except.ok (([[1, 2]] : List (List Int)).map
        (fun r => JVal.arr (r.map JVal.num))) ∧
    (([[1, 2]] : List (List Int)).map
        (fun r => JVal.arr (r.map JVal.num))).length = [['a']].length :=
  embed_batch_length_preserving [['a']] ['t'] [⟨[1, 2]⟩] [[1, 2]] 200
    (by decide) (by decide) (by decide) (by omega)

/-- Claim C7: `ensure_collection` run twice against the same service.  The
second call issues no create request and leaves the service unchanged, so the
two calls together issue at most one create request. -/
theorem ensure_collection_idempotent :
    ∀ (name : List Char) (s : QdrantState),
      (ensure_collection name (ensure_collection name s).1).2 = false ∧
      (ensure_collection name (ensure_collection name s).1).1 =
        (ensure_collection name s).1 ∧
      (ensure_collection name s).2.toNat +
        (ensure_collection name (ensure_collection name s).1).2.toNat ≤ 1 := by
  intro name s
  by_cases h : name ∈ s.collections
  · simp [ensure_collection, qdrant_get_collections, h]
  · simp [ensure_collection, qdrant_get_collections, qdrant_create_collection, h]

/-- The `k`-th point built by the upsert loop pairs the `k`-th chunk with the
`k`-th vector and the `(k0 + k)`-th fresh identifier; past the shorter list
there is no point. -/
lemma build_points_getElem (ids : ℕ → List Char) :
    ∀ (chunks : List (List Char)) (vectors : List JVal) (meta : DocMeta)
      (k0 k : ℕ),
      (build_points ids k0 chunks vectors meta)[k]? =
        match chunks[k]?, vectors[k]? with
        | some c, some v =>
          some { id := ids (k0 + k), vector := v,
                 payload := { doc_id := meta.doc_id,
                              course_id := meta.course_id,
                              module_id := meta.module_id, content := c } }
        | _, _ => none := by
  intro chunks
  induction chunks with
  | nil =>
    intro vectors meta k0 k
    simp [build_points]
  | cons c cs ih =>
    intro vectors meta k0 k
    cases vectors with
    | nil =>
      cases k with
      | zero => simp [build_points]
      | succ k => simp [build_points]
    | cons v vs =>
      cases k with
      | zero => simp [build_points]
      | succ k =>
        have := ih vs meta (k0 + 1) k
        simpa [build_points, Nat.add_assoc, Nat.add_comm 1 k] using this

/-- The upsert loop builds exactly `min |chunks| |vectors|` points. -/
lemma build_points_length (ids : ℕ → List Char) :
    ∀ (chunks : List (List Char)) (vectors : List JVal) (meta : DocMeta)
      (k0 : ℕ),
      (build_points ids k0 chunks vectors meta).length =
        min chunks.length vectors.length := by
  intro chunks
  induction chunks with
  | nil => intro vectors meta k0; simp [build_points]
  | cons c cs ih =>
    intro vectors meta k0
    cases vectors with
    | nil => simp [build_points]
    | cons v vs => simp [build_points, ih, Nat.succ_min_succ]

/-- Claim C10: on a successful reply, `qdrant_upsert` sends exactly
`min |chunks| |vectors|` points, pairing chunk `k` with vector `k` under the
`k`-th fresh identifier, the payload being the metadata merged with the chunk
under the content key; surplus chunks beyond the vectors (in particular all
chunks, when the vectors are empty) are silently dropped, never an error. -/
theorem qdrant_upsert_pairs_min :
    ∀ (ids : ℕ → List Char) (chunks : List (List Char))
      (vectors : List JVal) (meta : DocMeta),
      qdrant_upsert ids 200 chunks vectors meta =
        Except.ok (build_points ids 0 chunks vectors meta) ∧
      (build_points ids 0 chunks vectors meta).length =
        min chunks.length vectors.length ∧
      (∀ k : ℕ,
        (build_points ids 0 chunks vectors meta)[k]? =
          match chunks[k]?, vectors[k]? with
          | some c, some v =>
            some { id := ids k, vector := v,
                   payload := { doc_id := meta.doc_id,
                                course_id := meta.course_id,
                                module_id := meta.module_id, content := c } }
          | _, _ => none) ∧
      build_points ids 0 chunks [] meta = [] := by
  intro ids chunks vectors meta
  refine ⟨by rw [qdrant_upsert, if_neg (by omega)], build_points_length ids _ _ _ _, ?_, ?_⟩
  · intro k
    simpa using build_points_getElem ids chunks vectors meta 0 k
  · cases chunks <;> rfl

/-- Claim C8, counterexample: the claim says any non-2xx status on the
create-collection request halts the run before ingesting any document.  But
`raise_for_status` raises only for statuses in `[400, 600)`: with the service
answering the create request with the non-2xx status 302, the run does not
raise, proceeds into the document loop, and reads, embeds and upserts the
waiting document. -/
theorem run_main_proceeds_on_redirect_status :
    run_main "training_chunks".toList [] 302 "hf".toList (some ['t']) [] 200
        (JVal.arr []) (fun _ => []) 200 1 [("data/a.txt".toList, [])] =
      ([Event.listCollections, Event.createCollection,
        Event.readDoc "data/a.txt".toList, Event.embedCall,
        Event.upsertCall], some (Except.ok ())) ∧
    Event.readDoc "data/a.txt".toList ∈
      (run_main "training_chunks".toList [] 302 "hf".toList (some ['t']) [] 200
        (JVal.arr []) (fun _ => []) 200 1 [("data/a.txt".toList, [])]).1 ∧
    Event.embedCall ∈
      (run_main "training_chunks".toList [] 302 "hf".toList (some ['t']) [] 200
        (JVal.arr []) (fun _ => []) 200 1 [("data/a.txt".toList, [])]).1 ∧
    Event.upsertCall ∈
      (run_main "training_chunks".toList [] 302 "hf".toList (some ['t']) [] 200
        (JVal.arr []) (fun _ => []) 200 1
        [("data/a.txt".toList, [])]).1 := by
  refine ⟨rfl, ?_, ?_, ?_⟩ <;> decide

/-- Claim C8, amended: when the target collection is absent and the index
service answers the create request with a status in `[400, 600)` — the
statuses `raise_for_status` raises on, such as the claim's example 500 — the
run halts with the transport error right after the create request: the event
trace is exactly the collections query followed by the create request, so no
document read, no embedding call and no upsert occurs. -/
theorem run_main_halts_on_create_failure
    (collection : List Char) (serverCols : List (List Char))
    (createStatus : ℕ) (llm_provider : List Char)
    (hf_token : Option (List Char)) (openai_response : List OpenAIDatum)
    (hf_status : ℕ) (hf_response : JVal) (ids : ℕ → List Char)
    (upsert_status : ℕ) (fuel : ℕ)
    (docs : List ((List Char) × (List Char)))
    (habsent : collection ∉ serverCols)
    (hlo : 400 ≤ createStatus) (hhi : createStatus < 600) :
    run_main collection serverCols createStatus llm_provider hf_token
        openai_response hf_status hf_response ids upsert_status fuel docs =
      ([Event.listCollections, Event.createCollection],
        some (Except.error (PipelineError.createTransport createStatus))) ∧
    (∀ p, Event.readDoc p ∉
        (run_main collection serverCols createStatus llm_provider hf_token
          openai_response hf_status hf_response ids upsert_status fuel
          docs).1) ∧
    Event.embedCall ∉
      (run_main collection serverCols createStatus llm_provider hf_token
        openai_response hf_status hf_response ids upsert_status fuel docs).1 ∧
    Event.upsertCall ∉
      (run_main collection serverCols createStatus llm_provider hf_token
        openai_response hf_status hf_response ids upsert_status fuel
        docs).1 := by
  have hmain : run_main collection serverCols createStatus llm_provider
      hf_token openai_response hf_status hf_response ids upsert_status fuel
      docs =
      ([Event.listCollections, Event.createCollection],
        some (Except.error (PipelineError.createTransport createStatus))) := by
    rw [run_main, if_neg habsent, if_pos ⟨hlo, hhi⟩]
  refine ⟨hmain, ?_, ?_, ?_⟩ <;> rw [hmain] <;> simp

/-- Witness for the amended claim C8: a concrete run against a service with
no collections answering the create request with HTTP 500, with one document
waiting to be ingested. -/
theorem run_main_halts_on_create_failure_witness :
    run_main "training_chunks".toList [] 500 "hf".toList (some ['t']) [] 200
        (JVal.arr []) (fun _ => []) 200 1 [("data/a.txt".toList, ['h'])] =
      ([Event.listCollections, Event.createCollection],
        some (Except.error (PipelineError.createTransport 500))) ∧
    (∀ p, Event.readDoc p ∉
        (run_main "training_chunks".toList [] 500 "hf".toList (some ['t']) []
          200 (JVal.arr []) (fun _ => []) 200 1
          [("data/a.txt".toList, ['h'])]).1) ∧
    Event.embedCall ∉
      (run_main "training_chunks".toList [] 500 "hf".toList (some ['t']) [] 200
        (JVal.arr []) (fun _ => []) 200 1
        [("data/a.txt".toList, ['h'])]).1 ∧
    Event.upsertCall ∉
      (run_main "training_chunks".toList [] 500 "hf".toList (some ['t']) [] 200
        (JVal.arr []) (fun _ => []) 200 1
        [("data/a.txt".toList, ['h'])]).1 :=
  run_main_halts_on_create_failure "training_chunks".toList [] 500
    "hf".toList (some ['t']) [] 200 (JVal.arr []) (fun _ => []) 200 1
    [("data/a.txt".toList, ['h'])] (by simp) (by omega) (by omega)

/-- Claim C9, counterexample: a concrete run on which chunking, embedding and
upsert all succeed (an empty document, so the chunking loop exits at once).
`ingest_doc` has no `return` statement: the call evaluates to `None`, not to
the number of chunks ingested; that number only appears in the printed
report. -/
theorem ingest_doc_returns_none :
    (ingest_doc "hf".toList (some ['t']) [] 200 (JVal.arr [])
        (fun _ => []) 200 1 "data/c/m/f.txt".toList []).2 =
      some (Except.ok
        { printedCount := 0, points := [], retval := PyVal.none }) ∧
    PyVal.none ≠ PyVal.int 0 :=
  ⟨rfl, by decide⟩

/-- Claim C9, amended: for every document on which chunking, embedding and
upsert succeed, `ingest_doc` prints (reports) the number of chunks ingested
for that document and returns `None`. -/
theorem ingest_doc_reports_count
    (llm_provider : List Char) (hf_token : Option (List Char))
    (openai_response : List OpenAIDatum) (hf_status : ℕ) (hf_response : JVal)
    (ids : ℕ → List Char) (upsert_status : ℕ) (fuel : ℕ)
    (path text : List Char) (chunks : List (List Char))
    (outcome : IngestOutcome)
    (hch : chunk_text text 800 200 fuel = some chunks)
    (hok : (ingest_doc llm_provider hf_token openai_response hf_status
        hf_response ids upsert_status fuel path text).2 =
      some (Except.ok outcome)) :
    outcome.printedCount = chunks.length ∧ outcome.retval = PyVal.none := by
  rw [ingest_doc, hch] at hok
  dsimp only at hok
  cases hemb : embed_batch llm_provider hf_token openai_response hf_status
      hf_response chunks with
  | error e => rw [hemb] at hok; simp at hok
  | ok vectors =>
    rw [hemb] at hok
    dsimp only at hok
    cases hup : qdrant_upsert ids upsert_status chunks vectors
        (derive_meta path) with
    | error s => rw [hup] at hok; simp at hok
    | ok points =>
      rw [hup] at hok
      dsimp only at hok
      simp only [Option.some.injEq, Except.ok.injEq] at hok
      rw [← hok]
      exact ⟨rfl, rfl⟩

/-- Collapsing whitespace leaves a run of the letter a unchanged. -/
lemma collapseWS_replicate_a (b : Bool) :
    ∀ n : ℕ, collapseWS b (List.replicate n 'a') = List.replicate n 'a' := by
  intro n
  induction n generalizing b with
  | zero => rfl
  | succ n ih =>
    have hws : ('a').isWhitespace = false := by decide
    simp [List.replicate_succ, collapseWS, hws, ih]

/-- Normalization leaves a run of the letter a unchanged. -/
lemma normalizeText_replicate_a (n : ℕ) :
    normalizeText (List.replicate n 'a') = List.replicate n 'a' := by
  have hws : ('a').isWhitespace = false := by decide
  have hdrop : ∀ m : ℕ,
      (List.replicate m 'a').dropWhile Char.isWhitespace =
        List.replicate m 'a' := by
    intro m
    cases m with
    | zero => rfl
    | succ m => simp [List.replicate_succ, List.dropWhile_cons, hws]
  rw [normalizeText, collapseWS_replicate_a, pyStrip, hdrop,
    List.reverse_replicate, hdrop, List.reverse_replicate]

/-- Claim C5: the spec asserts that chunking 1000 characters with
`max_chars = 100`, `overlap = 20` yields chunks of length 100 except possibly
the last, with starts spaced by 80.  In the code the loop never terminates on
this very input (the window start gets stuck at `1000 - 20`), so no chunk
list is produced at all for any amount of fuel. -/
theorem chunk_text_thousand_never_terminates :
    ∀ fuel, chunk_text (List.replicate 1000 'a') 100 20 fuel = none := by
  intro fuel
  rw [chunk_text, normalizeText_replicate_a]
  exact chunkLoop_stuck _ 100 20 (by omega) fuel 0 []
    (by rw [List.length_replicate]; omega)

/-- Splitting always yields at least one segment. -/
lemma splitOnSep_ne_nil (sep : Char) (l : List Char) :
    splitOnSep sep l ≠ [] := by
  cases l with
  | nil => simp [splitOnSep]
  | cons c cs =>
    rw [splitOnSep]
    cases h : splitOnSep sep cs with
    | nil => simp
    | cons hd tl => by_cases hc : c = sep <;> simp [hc]

/-- A separator-free string splits to the single segment it is. -/
lemma splitOnSep_sepfree (sep : Char) :
    ∀ s : List Char, (∀ ch ∈ s, ch ≠ sep) → splitOnSep sep s = [s] := by
  intro s
  induction s with
  | nil => intro _; rfl
  | cons c cs ih =>
    intro h
    have h1 : splitOnSep sep cs = [cs] :=
      ih (fun ch hch => h ch (List.mem_cons_of_mem c hch))
    have hcs : ¬ c = sep := h c (List.mem_cons_self _ _)
    rw [splitOnSep, h1]
    simp [hcs]

/-- Splitting a separator-free segment, a separator, then a remainder peels
off exactly that first segment. -/
lemma splitOnSep_append_sep (sep : Char) :
    ∀ (s : List Char), (∀ ch ∈ s, ch ≠ sep) → ∀ t : List Char,
      splitOnSep sep (s ++ sep :: t) = s :: splitOnSep sep t := by
  intro s
  induction s with
  | nil =>
    intro _ t
    rw [List.nil_append, splitOnSep]
    cases h : splitOnSep sep t with
    | nil => exact absurd h (splitOnSep_ne_nil sep t)
    | cons hd tl => simp
  | cons c cs ih =>
    intro h t
    have h1 := ih (fun ch hch => h ch (List.mem_cons_of_mem c hch)) t
    have hcs : ¬ c = sep := h c (List.mem_cons_self _ _)
    rw [List.cons_append, splitOnSep, h1]
    simp [hcs]

/-- Splitting is a left inverse of joining separator-free segments. -/
lemma splitOnSep_joinSep (sep : Char) :
    ∀ segs : List (List Char), segs ≠ [] →
      (∀ s ∈ segs, ∀ ch ∈ s, ch ≠ sep) →
      splitOnSep sep (joinSep sep segs) = segs := by
  intro segs
  induction segs with
  | nil => intro h _; exact absurd rfl h
  | cons s rest ih =>
    intro _ hfree
    cases rest with
    | nil =>
      exact splitOnSep_sepfree sep s (hfree s (List.mem_cons_self _ _))
    | cons s2 rest2 =>
      rw [joinSep,
        splitOnSep_append_sep sep s (hfree s (List.mem_cons_self _ _)),
        ih (by simp) (fun x hx ch hch =>
          hfree x (List.mem_cons_of_mem s hx) ch hch)]

/-- Every point built by the upsert loop carries the metadata in its
payload. -/
lemma build_points_payload (ids : ℕ → List Char) :
    ∀ (chunks : List (List Char)) (k0 : ℕ) (vectors : List JVal)
      (meta : DocMeta), ∀ pt ∈ build_points ids k0 chunks vectors meta,
      pt.payload.doc_id = meta.doc_id ∧
      pt.payload.course_id = meta.course_id ∧
      pt.payload.module_id = meta.module_id := by
  intro chunks
  induction chunks with
  | nil => intro k0 vectors meta pt h; simp [build_points] at h
  | cons c cs ih =>
    intro k0 vectors meta pt h
    cases vectors with
    | nil => simp [build_points] at h
    | cons v vs =>
      rw [build_points] at h
      rcases List.mem_cons.mp h with rfl | h2
      · exact ⟨rfl, rfl, rfl⟩
      · exact ih (k0 + 1) vs meta pt h2

/-- A successful upsert reply means the points sent were exactly the built
ones. -/
lemma qdrant_upsert_ok_points (ids : ℕ → List Char) (st : ℕ)
    (chunks : List (List Char)) (vectors : List JVal) (meta : DocMeta)
    (points : List Point)
    (h : qdrant_upsert ids st chunks vectors meta = Except.ok points) :
    points = build_points ids 0 chunks vectors meta := by
  rw [qdrant_upsert] at h
  by_cases hst : 400 ≤ st ∧ st < 600
  · rw [if_pos hst] at h; cases h
  · rw [if_neg hst] at h
    exact (Except.ok.injEq _ _ ▸ h).symm

/-- Claim C6: metadata derivation and attachment.  For a path assembled from
separator-free segments, `course_id` is the third-from-last segment when there
are at least three (else `"general"`), `module_id` is the second-from-last
when there are at least two (else `"intro"`), and `doc_id` is the stem of the
last; every point built carries the metadata in its payload, and every point
of a successful `ingest_doc` run carries the metadata derived from the
document's path. -/
theorem ingest_doc_metadata
    (pre : List (List Char)) (a b c : List Char)
    (hpre : ∀ s ∈ pre, ∀ ch ∈ s, ch ≠ '/')
    (ha : ∀ ch ∈ a, ch ≠ '/') (hb : ∀ ch ∈ b, ch ≠ '/')
    (hc : ∀ ch ∈ c, ch ≠ '/') :
    derive_meta (joinSep '/' (pre ++ [a, b, c])) = DocMeta.mk (stem c) a b ∧
    derive_meta (joinSep '/' [b, c]) =
      DocMeta.mk (stem c) "general".toList b ∧
    derive_meta c = DocMeta.mk (stem c) "general".toList "intro".toList ∧
    (∀ (ids : ℕ → List Char) (k0 : ℕ) (chunks : List (List Char))
       (vectors : List JVal) (meta : DocMeta),
       ∀ pt ∈ build_points ids k0 chunks vectors meta,
         pt.payload.doc_id = meta.doc_id ∧
         pt.payload.course_id = meta.course_id ∧
         pt.payload.module_id = meta.module_id) ∧
    (∀ (llm_provider : List Char) (hf_token : Option (List Char))
       (openai_response : List OpenAIDatum) (hf_status : ℕ)
       (hf_response : JVal) (ids : ℕ → List Char) (upsert_status fuel : ℕ)
       (path text : List Char) (outcome : IngestOutcome),
       (ingest_doc llm_provider hf_token openai_response hf_status hf_response
           ids upsert_status fuel path text).2 = some (Except.ok outcome) →
       ∀ pt ∈ outcome.points,
         pt.payload.doc_id = (derive_meta path).doc_id ∧
         pt.payload.course_id = (derive_meta path).course_id ∧
         pt.payload.module_id = (derive_meta path).module_id) := by
  refine ⟨?_, ?_, ?_, ?_, ?_⟩
  · have hsplit : splitOnSep '/' (joinSep '/' (pre ++ [a, b, c])) =
        pre ++ [a, b, c] := by
      refine splitOnSep_joinSep '/' _ (by simp) ?_
      intro s hs
      rcases List.mem_append.mp hs with hs | hs
      · exact hpre s hs
      · simp only [List.mem_cons, List.not_mem_nil, or_false] at hs
        rcases hs with rfl | rfl | rfl
        · exact ha
        · exact hb
        · exact hc
    rw [derive_meta]
    rw [hsplit]
    have hlen : (pre ++ [a, b, c]).length = pre.length + 3 := by
      simp
    have hlast : (pre ++ [a, b, c]).getLastD [] = c := by
      have : pre ++ [a, b, c] = (pre ++ [a, b]) ++ [c] := by simp
      rw [this, List.getLastD_concat]
    have hcourse : (pre ++ [a, b, c])[(pre ++ [a, b, c]).length - 3]? =
        some a := by
      rw [hlen, Nat.add_sub_cancel,
        List.getElem?_append_right (Nat.le_refl _), Nat.sub_self]
      rfl
    have hmodule : (pre ++ [a, b, c])[(pre ++ [a, b, c]).length - 2]? =
        some b := by
      have h2 : pre.length + 3 - 2 = pre.length + 1 := by omega
      rw [hlen, h2, List.getElem?_append_right (Nat.le_add_right _ _),
        Nat.add_sub_cancel_left]
      rfl
    rw [hlast, hcourse, hmodule]
    simp [hlen]
  · have hsplit : splitOnSep '/' (joinSep '/' [b, c]) = [b, c] := by
      refine splitOnSep_joinSep '/' _ (by simp) ?_
      intro s hs
      simp only [List.mem_cons, List.not_mem_nil, or_false] at hs
      rcases hs with rfl | rfl
      · exact hb
      · exact hc
    rw [derive_meta, hsplit]
    rfl
  · have hsplit : splitOnSep '/' c = [c] := splitOnSep_sepfree '/' c hc
    rw [derive_meta, hsplit]
    rfl
  · intro ids k0 chunks vectors meta pt hpt
    exact build_points_payload ids chunks k0 vectors meta pt hpt
  · intro llm_provider hf_token openai_response hf_status hf_response ids
      upsert_status fuel path text outcome hok pt hpt
    rw [ingest_doc] at hok
    cases hch : chunk_text text 800 200 fuel with
    | none => rw [hch] at hok; simp at hok
    | some chunks =>
      rw [hch] at hok
      dsimp only at hok
      cases hemb : embed_batch llm_provider hf_token openai_response hf_status
          hf_response chunks with
      | error e => rw [hemb] at hok; simp at hok
      | ok vectors =>
        rw [hemb] at hok
        dsimp only at hok
        cases hup : qdrant_upsert ids upsert_status chunks vectors
            (derive_meta path) with
        | error s => rw [hup] at hok; simp at hok
        | ok points =>
          rw [hup] at hok
          dsimp only at hok
          simp only [Option.some.injEq, Except.ok.injEq] at hok
          have hpts : outcome.points =
              build_points ids 0 chunks vectors (derive_meta path) := by
            rw [← hok]
            exact qdrant_upsert_ok_points ids upsert_status chunks vectors
              (derive_meta path) points hup
          rw [hpts] at hpt
          exact build_points_payload ids chunks 0 vectors (derive_meta path)
            pt hpt

/-- Witness for claim C6 at the spec's example path
`data/courseA/mod1/lesson.txt`. -/
theorem ingest_doc_metadata_witness :
    derive_meta (joinSep '/'
        (["data".toList] ++
          ["courseA".toList, "mod1".toList, "lesson.txt".toList])) =
      DocMeta.mk (stem "lesson.txt".toList) "courseA".toList
        "mod1".toList ∧
    derive_meta (joinSep '/' ["mod1".toList, "lesson.txt".toList]) =
      DocMeta.mk (stem "lesson.txt".toList) "general".toList
        "mod1".toList ∧
    derive_meta "lesson.txt".toList =
      DocMeta.mk (stem "lesson.txt".toList) "general".toList
        "intro".toList ∧
    (∀ (ids : ℕ → List Char) (k0 : ℕ) (chunks : List (List Char))
       (vectors : List JVal) (meta : DocMeta),
       ∀ pt ∈ build_points ids k0 chunks vectors meta,
         pt.payload.doc_id = meta.doc_id ∧
         pt.payload.course_id = meta.course_id ∧
         pt.payload.module_id = meta.module_id) ∧
    (∀ (llm_provider : List Char) (hf_token : Option (List Char))
       (openai_response : List OpenAIDatum) (hf_status : ℕ)
       (hf_response : JVal) (ids : ℕ → List Char) (upsert_status fuel : ℕ)
       (path text : List Char) (outcome : IngestOutcome),
       (ingest_doc llm_provider hf_token openai_response hf_status hf_response
           ids upsert_status fuel path text).2 = some (Except.ok outcome) →
       ∀ pt ∈ outcome.points,
         pt.payload.doc_id = (derive_meta path).doc_id ∧
         pt.payload.course_id = (derive_meta path).course_id ∧
         pt.payload.module_id = (derive_meta path).module_id) :=
  ingest_doc_metadata ["data".toList] "courseA".toList "mod1".toList
    "lesson.txt".toList (by decide) (by decide) (by decide) (by decide)

/-- Witness for the amended claim C9 at the concrete successful run of the
counterexample. -/
theorem ingest_doc_reports_count_witness :
    (IngestOutcome.mk 0 [] PyVal.none).printedCount =
      ([] : List (List Char)).length ∧
    (IngestOutcome.mk 0 [] PyVal.none).retval = PyVal.none :=
  ingest_doc_reports_count "hf".toList (some ['t']) [] 200 (JVal.arr [])
    (fun _ => []) 200 1 "data/c/m/f.txt".toList [] []
    (IngestOutcome.mk 0 [] PyVal.none) rfl rfl

end Ingest
